import Mathlib

/-!
Shallow embedding of `bz4.googlecontacts.cpp`, a single-pass converter from a
Google-Forms CSV export to the 23-column Google Contacts CSV schema.

The embedding works at the level of character lists (`String.data`): the C++
code scans bytes, but every character the logic branches on (`"` , `,` , space,
newline) is ASCII, and in UTF-8 a continuation byte never equals an ASCII byte,
so the byte-level scan and the codepoint-level scan agree on these tests.
-/

namespace Bz4

/-- Recursive worker for `parse_csv_line`, mirroring the `while (ss.get(c))`
loop of the C++ function: `field_buffer` is the growing buffer, `in_quotes`
the inside-quoted-field flag, `fields` the vector built so far.  The C++
escaped-quote test is `if (c == '"') { if (ss.peek() == '"') ... }` — note
that it does **not** consult `in_quotes`; the embedding reproduces that.
The one-character case inlines the last loop iteration (where `peek()`
returns EOF, never `'"'`) followed by the final `fields.push_back` of the
buffer, so that the recursion is structural.  Returns the field vector
together with the final value of the flag (the C++ function discards the
flag; `parse_csv_line` projects it away). -/
def parseGo : List Char → String → Bool → List String → List String × Bool
  | [], field_buffer, in_quotes, fields => (fields ++ [field_buffer], in_quotes)
  | [c], field_buffer, in_quotes, fields =>
    if c = '"' then
      (fields ++ [field_buffer], !in_quotes)
    else if c = ',' ∧ in_quotes = false then
      (fields ++ [field_buffer] ++ [""], in_quotes)
    else
      (fields ++ [field_buffer.push c], in_quotes)
  | c :: c2 :: cs, field_buffer, in_quotes, fields =>
    if c = '"' then
      if c2 = '"' then
        parseGo cs (field_buffer.push '"') in_quotes fields
      else
        parseGo (c2 :: cs) field_buffer (!in_quotes) fields
    else if c = ',' ∧ in_quotes = false then
      parseGo (c2 :: cs) "" in_quotes (fields ++ [field_buffer])
    else
      parseGo (c2 :: cs) (field_buffer.push c) in_quotes fields

/-- Function `parse_csv_line` from the source: split one CSV line into fields,
honoring double quotes. -/
def parse_csv_line (line : String) : List String :=
  (parseGo line.data "" false []).1

/-- Function `format_csv_field` from the source: quote a field when it contains a
comma, a double quote or a newline (the three `field.find(c) != npos` tests,
stated as character membership), doubling internal quotes; otherwise return
it unchanged. -/
def format_csv_field (field : String) : String :=
  if ',' ∈ field.data ∨ '"' ∈ field.data ∨ '\n' ∈ field.data then
    (field.data.foldl
      (fun escaped_field c =>
        if c = '"' then escaped_field ++ "\"\"" else escaped_field.push c)
      "\"") ++ "\""
  else
    field

/-- Model of `std::string::find(c)` at character level: index of the first
occurrence of `c`, or `none` (the C++ `npos` case). -/
def findChar : List Char → Char → Option Nat
  | [], _ => none
  | a :: t, c => if a = c then some 0 else (findChar t c).map (· + 1)

/-- Function `splitGroupLastName` from the source, returning the two output parameters
as a pair `(group, lastName)`.  The trailing-space trim of `group` models
`find_last_not_of(' ')` followed by `erase` (or `clear` when the whole prefix
is spaces); `lastName` models `find_first_not_of(' ', first_space)` followed
by `substr` (empty when no non-space remains). -/
def splitGroupLastName (combined : String) : String × String :=
  if combined = "" then ("", "")
  else
    match findChar combined.data ' ' with
    | some first_space =>
      let group := ((combined.data.take first_space).reverse.dropWhile (· = ' ')).reverse
      let lastName := (combined.data.drop first_space).dropWhile (· = ' ')
      (String.mk group, String.mk lastName)
    | none => ("", combined)

/-- The row-mapping block of `main` (lines 325–378): build the 23-field
output row from the parsed input fields and the user-supplied label.
Field indices follow the `INPUT_IDX_*` constants of the source; the C++
`input_fields[i]` accesses are guarded by the `size() >= 7` check, so the
`getD` default is never read on accepted rows. -/
def mapRow (input_fields : List String) (contact_group_label : String) : List String :=
  let output_fields : List String := List.replicate 23 ""
  let output_fields := output_fields.set 0 (input_fields.getD 2 "")
  let gl := splitGroupLastName (input_fields.getD 3 "")
  let output_fields := output_fields.set 2 (if gl.1 ≠ "" then gl.1 ++ " " ++ gl.2 else gl.2)
  let output_fields := output_fields.set 16 contact_group_label
  let output_fields := output_fields.set 18 (input_fields.getD 5 "")
  let output_fields := output_fields.set 20 (input_fields.getD 4 "")
  let output_fields := output_fields.set 22 (input_fields.getD 6 "")
  output_fields

/-- The serialization loop of `main` (lines 381–390): write each formatted
field, with a comma after every field except the last. -/
def serialize_fields : List String → String
  | [] => ""
  | [f] => format_csv_field f
  | f :: g :: rest => format_csv_field f ++ "," ++ serialize_fields (g :: rest)

/-- One complete data line: the serialized fields followed by the single
`"\n"` written at line 392 of the source (binary mode, so no `\r`). -/
def serialize_row (row : List String) : String :=
  serialize_fields row ++ "\n"

/-- The fixed output header line written before the loop (line 271). -/
def output_header : String :=
  "First Name,Middle Name,Last Name,Phonetic First Name,Phonetic Middle Name,Phonetic Last Name,Name Prefix,Name Suffix,Nickname,File As,Organization Name,Organization Title,Organization Department,Birthday,Notes,Photo,Labels,E-mail 1 - Label,E-mail 1 - Value,E-mail 2 - Label,E-mail 2 - Value,Phone 1 - Label,Phone 1 - Value"

/-- The `std::cerr` warnings issued inside the read loop: an empty line
(line 299) or a line with fewer than 7 parsed fields (lines 317–318, which
also report the found field count and the raw line). -/
inductive LogEvent : Type
  | emptyLine (line_number : Nat)
  | tooFewFields (line_number : Nat) (found : Nat) (line : String)
  deriving DecidableEq, Repr

/-- The mutable state of `main`'s read loop: the header flag, the line
counter, the processed-row counter, the data lines written so far, and the
warnings issued so far. -/
structure LoopState where
  is_first_line : Bool
  line_number : Nat
  processed_count : Nat
  out : List String
  log : List LogEvent
  deriving DecidableEq, Repr

/-- The state just before the loop (lines 287–290). -/
def initState : LoopState :=
  { is_first_line := true, line_number := 0, processed_count := 0, out := [], log := [] }

/-- One iteration of the `while (std::getline(...))` loop (lines 293–408).
The order of the tests is the source's: the line counter increments first,
the empty-line test precedes the header test, and only then is the line
parsed and checked against `INPUT_NUM_COLUMNS_EXPECTED = 7`.  The `try`
block's body is total in this model, so the `catch` arms are unreachable. -/
def processLine (contact_group_label : String) (s : LoopState) (line : String) : LoopState :=
  let n := s.line_number + 1
  if line = "" then
    { s with line_number := n, log := s.log ++ [LogEvent.emptyLine n] }
  else if s.is_first_line then
    { s with line_number := n, is_first_line := false }
  else
    let input_fields := parse_csv_line line
    if input_fields.length < 7 then
      { s with line_number := n,
               log := s.log ++ [LogEvent.tooFewFields n input_fields.length line] }
    else
      { s with line_number := n,
               out := s.out ++ [serialize_row (mapRow input_fields contact_group_label)],
               processed_count := s.processed_count + 1 }

/-- Run the read loop from a given state over a list of input lines. -/
def runLoop (contact_group_label : String) (s : LoopState) (lines : List String) : LoopState :=
  lines.foldl (processLine contact_group_label) s

/-- The whole row-processing phase of `main`: all input lines from the
initial state.  The data lines in `.out` are exactly the lines written to
the output file after the BOM and the fixed `output_header` line. -/
def runProgram (lines : List String) (contact_group_label : String) : LoopState :=
  runLoop contact_group_label initState lines

/-! ### Helper lemmas -/

/-- Lemma: `mapRow` written out as the explicit 23-field row it builds. -/
lemma mapRow_eq (f : List String) (l : String) :
    mapRow f l =
      [f.getD 2 "", "",
       (if (splitGroupLastName (f.getD 3 "")).1 ≠ "" then
          (splitGroupLastName (f.getD 3 "")).1 ++ " " ++ (splitGroupLastName (f.getD 3 "")).2
        else (splitGroupLastName (f.getD 3 "")).2),
       "", "", "", "", "", "", "", "", "", "", "", "", "", l, "",
       f.getD 5 "", "", f.getD 4 "", "", f.getD 6 ""] := rfl

lemma findChar_eq_none_iff {l : List Char} {c : Char} : findChar l c = none ↔ c ∉ l := by
  induction l with
  | nil => simp [findChar]
  | cons a t ih =>
    by_cases h : a = c
    · simp [findChar, h]
    · simp [findChar, h, ih, Ne.symm h]

lemma findChar_take_drop {c : Char} : ∀ {l : List Char} {i : Nat}, findChar l c = some i →
    l.take i = l.takeWhile (· ≠ c) ∧ l.drop i = l.dropWhile (· ≠ c) := by
  intro l
  induction l with
  | nil => intro i h; simp [findChar] at h
  | cons a t ih =>
    intro i h
    by_cases ha : a = c
    · simp only [findChar, if_pos ha] at h
      subst ha
      cases h
      constructor
      · simp [List.takeWhile_cons]
      · simp [List.dropWhile_cons]
    · simp only [findChar, if_neg ha, Option.map_eq_some'] at h
      obtain ⟨j, hj, rfl⟩ := h
      obtain ⟨h1, h2⟩ := ih hj
      constructor
      · simpa [List.takeWhile_cons, ha] using h1
      · simpa [List.dropWhile_cons, ha] using h2

lemma dropWhile_eq_self_of_all {p : Char → Bool} :
    ∀ {l : List Char}, (∀ x ∈ l, p x = false) → l.dropWhile p = l := by
  intro l h
  cases l with
  | nil => rfl
  | cons a t => simp [List.dropWhile_cons, h a (by simp)]

/-- Unrolling the quote-doubling `for` loop of `format_csv_field`: folding
from any initial accumulator appends the character-by-character escape. -/
lemma escape_foldl (l : List Char) (s : String) :
    l.foldl
      (fun escaped_field c =>
        if c = '"' then escaped_field ++ "\"\"" else escaped_field.push c) s
      = s ++ String.mk (l.flatMap fun c => if c = '"' then ['"', '"'] else [c]) := by
  induction l generalizing s with
  | nil => apply String.ext; simp
  | cons c t ih =>
    by_cases hc : c = '"'
    · subst hc
      simp only [List.foldl_cons, if_pos rfl, List.flatMap_cons, ih]
      apply String.ext
      simp [String.data_append]
    · simp only [List.foldl_cons, if_neg hc, List.flatMap_cons, ih]
      apply String.ext
      simp [String.data_append, hc]

/-! ### The claims -/

/-- Claim C1: for every input row with at least 7 fields and every contact
label `L`, the row mapper produces a 23-field row whose position 0 is input
field 2, position 2 the group/last-name combination, position 16 the label
`L`, position 18 input field 5, position 20 input field 4, position 22 input
field 6, and the empty string everywhere else — in particular E-mail 1 takes
field 5 and E-mail 2 takes field 4. -/
theorem c1_row_mapper (fields : List String) (L : String) (_h : 7 ≤ fields.length) :
    (mapRow fields L).length = 23 ∧
    (mapRow fields L).getD 0 "" = fields.getD 2 "" ∧
    (mapRow fields L).getD 2 "" =
      (if (splitGroupLastName (fields.getD 3 "")).1 ≠ "" then
        (splitGroupLastName (fields.getD 3 "")).1 ++ " " ++ (splitGroupLastName (fields.getD 3 "")).2
       else (splitGroupLastName (fields.getD 3 "")).2) ∧
    (mapRow fields L).getD 16 "" = L ∧
    (mapRow fields L).getD 18 "" = fields.getD 5 "" ∧
    (mapRow fields L).getD 20 "" = fields.getD 4 "" ∧
    (mapRow fields L).getD 22 "" = fields.getD 6 "" ∧
    ∀ i, i < 23 → i ∉ ([0, 2, 16, 18, 20, 22] : List Nat) → (mapRow fields L).getD i "" = "" := by
  refine ⟨rfl, rfl, rfl, rfl, rfl, rfl, rfl, ?_⟩
  intro i h1 h2
  rw [mapRow_eq]
  interval_cases i <;> simp_all

/-- Witness for C1 at the spec's end-to-end example row. -/
theorem c1_row_mapper_witness :
    (mapRow ["", "Role", "Ivan", "ГР-1 Petrov", "login@x.com", "new@x.com", "+79990000000"]
        "2024").getD 18 "" = "new@x.com" :=
  (c1_row_mapper ["", "Role", "Ivan", "ГР-1 Petrov", "login@x.com", "new@x.com", "+79990000000"]
    "2024" (by decide)).2.2.2.2.1

/-- Claim C3 (code bug): on the line consisting of the two characters `""`,
the flag is not set at the first quote, yet the tokenizer emits a literal
quote and consumes both characters, yielding the field `"`; the claimed
behavior (toggle twice) would yield the empty field. -/
theorem c3_escaped_quote_ignores_flag :
    parse_csv_line "\"\"" = ["\""] ∧ parse_csv_line "\"\"" ≠ [""] := by
  constructor
  · rfl
  · decide

/-- Claim C4 (code bug): the encode-then-tokenize round trip fails on the
one-character field `"`: its encoding is `""""`, which the tokenizer reads
back as the two-character field `""`. -/
theorem c4_roundtrip_fails :
    parse_csv_line (format_csv_field "\"") = ["\"\""] ∧
    parse_csv_line (format_csv_field "\"") ≠ ["\""] := by
  constructor
  · rfl
  · decide

/-- Claim C6: the encoder quotes (wrapping in double quotes and doubling each
internal double quote) exactly when the field contains a comma, a double
quote, or a newline, and otherwise returns the field unchanged. -/
theorem c6_encoder (f : String) :
    ((',' ∈ f.data ∨ '"' ∈ f.data ∨ '\n' ∈ f.data) →
        format_csv_field f =
          "\"" ++ String.mk (f.data.flatMap fun c => if c = '"' then ['"', '"'] else [c]) ++ "\"") ∧
    ((',' ∉ f.data ∧ '"' ∉ f.data ∧ '\n' ∉ f.data) → format_csv_field f = f) := by
  constructor
  · intro h
    unfold format_csv_field
    rw [if_pos h, escape_foldl]
  · intro h
    unfold format_csv_field
    rw [if_neg (by simp only [not_or]; exact ⟨h.1, h.2.1, h.2.2⟩)]

/-- Witness for C6: a field with a comma is quoted, a plain field is not. -/
theorem c6_encoder_witness :
    format_csv_field "a,b" = "\"a,b\"" ∧ format_csv_field "x" = "x" :=
  ⟨((c6_encoder "a,b").1 (by decide)).trans (by decide),
   (c6_encoder "x").2 (by decide)⟩

/-- Claim C5: the splitter returns the substring before the first space
(trailing spaces trimmed — vacuous, as it never contains a space) as the
group, and the substring after the first run of spaces as the last name;
with no space at all, the group is empty and the whole string is the last
name, and the three examples from the spec evaluate as stated. -/
theorem c5_splitter :
    (∀ combined : String, ' ' ∈ combined.data →
        splitGroupLastName combined =
          (String.mk (combined.data.takeWhile (· ≠ ' ')),
           String.mk ((combined.data.dropWhile (· ≠ ' ')).dropWhile (· = ' ')))) ∧
    (∀ combined : String, ' ' ∉ combined.data → splitGroupLastName combined = ("", combined)) ∧
    splitGroupLastName "ПМ-35 ПОНОМАРЕВ" = ("ПМ-35", "ПОНОМАРЕВ") ∧
    splitGroupLastName "Иванов" = ("", "Иванов") ∧
    splitGroupLastName "" = ("", "") := by
  refine ⟨?_, ?_, by decide, by decide, rfl⟩
  · intro combined hmem
    have hdata : combined.data ≠ [] := List.ne_nil_of_mem hmem
    have hne : combined ≠ "" := by
      intro h
      subst h
      exact hdata rfl
    rw [splitGroupLastName, if_neg hne]
    obtain ⟨i, hi⟩ : ∃ i, findChar combined.data ' ' = some i := by
      cases hfc : findChar combined.data ' ' with
      | none => exact absurd hmem (findChar_eq_none_iff.mp hfc)
      | some j => exact ⟨j, rfl⟩
    rw [hi]
    obtain ⟨ht, hd⟩ := findChar_take_drop hi
    simp only [ht, hd]
    have hgroup :
        ((combined.data.takeWhile (· ≠ ' ')).reverse.dropWhile (· = ' ')).reverse
          = combined.data.takeWhile (· ≠ ' ') := by
      rw [dropWhile_eq_self_of_all, List.reverse_reverse]
      intro x hx
      have hx' := List.mem_takeWhile_imp (List.mem_reverse.mp hx)
      simpa using hx'
    rw [hgroup]
  · intro combined hmem
    by_cases hc : combined = ""
    · subst hc
      rfl
    · rw [splitGroupLastName, if_neg hc, findChar_eq_none_iff.mpr hmem]

/-- Witness for C5 on concrete inputs for both general branches. -/
theorem c5_splitter_witness :
    splitGroupLastName "AB  CD E" = ("AB", "CD E") ∧ splitGroupLastName "X" = ("", "X") :=
  ⟨(c5_splitter.1 "AB  CD E" (by decide)).trans (by decide),
   c5_splitter.2.1 "X" (by decide)⟩

lemma intercalate_go_eq (sep : String) : ∀ (xs : List String) (acc : String),
    String.intercalate.go acc sep xs = acc ++ String.intercalate.go "" sep xs := by
  intro xs
  induction xs with
  | nil => intro acc; simp [String.intercalate.go]
  | cons a as ih =>
    intro acc
    rw [String.intercalate.go, String.intercalate.go, ih, ih ("" ++ sep ++ a)]
    simp [String.append_assoc]

lemma intercalate_cons_cons (x y : String) (ys : List String) :
    String.intercalate "," (x :: y :: ys) = x ++ "," ++ String.intercalate "," (y :: ys) := by
  show String.intercalate.go x "," (y :: ys) = x ++ "," ++ String.intercalate.go y "," ys
  rw [String.intercalate.go, intercalate_go_eq "," ys (x ++ "," ++ y), intercalate_go_eq "," ys y]
  simp [String.append_assoc]

/-- The per-field write loop agrees with joining the encoded fields with
single commas. -/
lemma serialize_fields_intercalate :
    ∀ l : List String, serialize_fields l = String.intercalate "," (l.map format_csv_field)
  | [] => rfl
  | [_] => rfl
  | f :: g :: rest => by
    rw [serialize_fields, serialize_fields_intercalate (g :: rest), List.map_cons, List.map_cons,
      List.map_cons, intercalate_cons_cons]

/-- Claim C2: every accepted data line (at least 7 parsed fields, past the
header) appends to the output exactly one line consisting of the 23 encoded
fields joined by single commas and terminated by the single character
`'\n'` (no carriage return). -/
theorem c2_data_line (label : String) (s : LoopState) (line : String)
    (h1 : s.is_first_line = false) (h2 : line ≠ "") (h3 : 7 ≤ (parse_csv_line line).length) :
    (mapRow (parse_csv_line line) label).length = 23 ∧
    (processLine label s line).out =
      s.out ++ [String.intercalate "," ((mapRow (parse_csv_line line) label).map format_csv_field)
        ++ String.singleton '\n'] := by
  refine ⟨rfl, ?_⟩
  rw [processLine]
  simp only [if_neg h2, h1, Bool.false_eq_true, if_false]
  rw [if_neg (by omega)]
  rw [serialize_row, serialize_fields_intercalate]
  rfl

/-- Witness for C2 at a concrete accepted row. -/
theorem c2_data_line_witness :
    (mapRow (parse_csv_line "a,b,c,d,e,f,g") "L").length = 23 ∧
    (processLine "L"
        { is_first_line := false, line_number := 1, processed_count := 0, out := [], log := [] }
        "a,b,c,d,e,f,g").out =
      [String.intercalate "," ((mapRow (parse_csv_line "a,b,c,d,e,f,g") "L").map format_csv_field)
        ++ String.singleton '\n'] := by
  have h := c2_data_line "L"
    { is_first_line := false, line_number := 1, processed_count := 0, out := [], log := [] }
    "a,b,c,d,e,f,g" rfl (by decide) (by decide)
  simpa using h

/-- Claim C7: a non-empty data line (past the header) that parses to fewer
than 7 fields is rejected non-fatally: the step only advances the line
counter and logs a warning carrying the line number, the found field count
and the raw line; it writes no data line, leaves the processed counter
unchanged, and the loop continues with the remaining lines. -/
theorem c7_short_row_skipped (label : String) (s : LoopState) (line : String) (rest : List String)
    (h1 : s.is_first_line = false) (h2 : line ≠ "") (h3 : (parse_csv_line line).length < 7) :
    processLine label s line =
      { s with line_number := s.line_number + 1,
               log := s.log ++
                 [LogEvent.tooFewFields (s.line_number + 1) (parse_csv_line line).length line] } ∧
    (processLine label s line).out = s.out ∧
    (processLine label s line).processed_count = s.processed_count ∧
    runLoop label s (line :: rest) = runLoop label (processLine label s line) rest := by
  have hstep : processLine label s line =
      { s with line_number := s.line_number + 1,
               log := s.log ++
                 [LogEvent.tooFewFields (s.line_number + 1) (parse_csv_line line).length line] } := by
    rw [processLine]
    simp only [if_neg h2, h1, Bool.false_eq_true, if_false]
    rw [if_pos h3]
  exact ⟨hstep, by rw [hstep], by rw [hstep], rfl⟩

/-- Witness for C7 at a concrete 2-field row. -/
theorem c7_short_row_skipped_witness :
    (processLine "L"
        { is_first_line := false, line_number := 1, processed_count := 0, out := [], log := [] }
        "a,b").out = [] ∧
    (processLine "L"
        { is_first_line := false, line_number := 1, processed_count := 0, out := [], log := [] }
        "a,b").processed_count = 0 :=
  ⟨(c7_short_row_skipped "L"
      { is_first_line := false, line_number := 1, processed_count := 0, out := [], log := [] }
      "a,b" [] rfl (by decide) (by decide)).2.1,
   (c7_short_row_skipped "L"
      { is_first_line := false, line_number := 1, processed_count := 0, out := [], log := [] }
      "a,b" [] rfl (by decide) (by decide)).2.2.1⟩

/-- Claim C8 (counterexample): the empty-line test precedes the header test,
so when the first line is empty the *second* line — non-empty and after the
first — is the one consumed as the header: it is neither written nor
counted, while the same data line after a non-empty header line is written. -/
theorem c8_counterexample :
    (runProgram ["", "a,b,c,d,e,f,g"] "L").out = [] ∧
    (runProgram ["", "a,b,c,d,e,f,g"] "L").processed_count = 0 ∧
    (runProgram ["hdr", "a,b,c,d,e,f,g"] "L").out.length = 1 := by
  refine ⟨rfl, rfl, rfl⟩

/-- Claim C8 (amended): the line discarded as the header is the first
non-empty line, not necessarily line 1: an empty line is skipped with a
warning and leaves the header flag unchanged; the first non-empty line seen
while the flag is set is discarded without being parsed; and once the flag
is cleared every non-empty line is parsed and handled as a data row (warned
when under 7 fields, otherwise written and counted). -/
theorem c8_header_first_nonempty (label : String) :
    (∀ s : LoopState,
        processLine label s "" =
          { s with line_number := s.line_number + 1,
                   log := s.log ++ [LogEvent.emptyLine (s.line_number + 1)] }) ∧
    (∀ (s : LoopState) (line : String), line ≠ "" → s.is_first_line = true →
        processLine label s line =
          { s with line_number := s.line_number + 1, is_first_line := false }) ∧
    (∀ (s : LoopState) (line : String), line ≠ "" → s.is_first_line = false →
        ((parse_csv_line line).length < 7 →
            processLine label s line =
              { s with line_number := s.line_number + 1,
                       log := s.log ++ [LogEvent.tooFewFields (s.line_number + 1)
                                          (parse_csv_line line).length line] }) ∧
        (7 ≤ (parse_csv_line line).length →
            processLine label s line =
              { s with line_number := s.line_number + 1,
                       out := s.out ++ [serialize_row (mapRow (parse_csv_line line) label)],
                       processed_count := s.processed_count + 1 })) := by
  refine ⟨?_, ?_, ?_⟩
  · intro s
    rw [processLine, if_pos rfl]
  · intro s line h1 h2
    rw [processLine]
    simp only [if_neg h1, h2, if_true]
  · intro s line h1 h2
    constructor
    · intro h3
      rw [processLine]
      simp only [if_neg h1, h2, Bool.false_eq_true, if_false]
      rw [if_pos h3]
    · intro h3
      rw [processLine]
      simp only [if_neg h1, h2, Bool.false_eq_true, if_false]
      rw [if_neg (by omega)]

/-- Witness for C8 (amended): the non-empty line `"hdr"` seen with the flag
set is discarded unparsed. -/
theorem c8_header_first_nonempty_witness :
    processLine "L"
        { is_first_line := true, line_number := 0, processed_count := 0, out := [], log := [] }
        "hdr" =
      { is_first_line := false, line_number := 1, processed_count := 0, out := [], log := [] } :=
  (c8_header_first_nonempty "L").2.1
    { is_first_line := true, line_number := 0, processed_count := 0, out := [], log := [] }
    "hdr" (by decide) rfl

lemma parseGo_length : ∀ (cs : List Char) (buf : String) (inq : Bool) (acc : List String),
    acc.length + 1 ≤ (parseGo cs buf inq acc).1.length
  | [], _, _, acc => by simp [parseGo]
  | [c], _, _, acc => by
    rw [parseGo]
    split_ifs <;> simp [List.length_append]
  | c :: c2 :: cs, buf, inq, acc => by
    rw [parseGo]
    split_ifs with h1 h2 h3
    · exact parseGo_length cs (buf.push '"') inq acc
    · exact parseGo_length (c2 :: cs) buf (!inq) acc
    · have h := parseGo_length (c2 :: cs) "" inq (acc ++ [buf])
      simp only [List.length_append, List.length_singleton] at h
      omega
    · exact parseGo_length (c2 :: cs) (buf.push c) inq acc

lemma parseGo_unterminated :
    ∀ (cs : List Char) (buf : String) (acc : List String), '"' ∉ cs →
      parseGo cs buf true acc = (acc ++ [buf ++ String.mk cs], true) := by
  intro cs
  induction cs with
  | nil =>
    intro buf acc _
    have hb : buf ++ String.mk [] = buf := by
      apply String.ext
      simp
    rw [parseGo, hb]
  | cons c t ih =>
    intro buf acc h
    have hc : c ≠ '"' := fun hh => h (hh ▸ List.mem_cons_self c t)
    have ht : '"' ∉ t := fun hh => h (List.mem_cons_of_mem c hh)
    have hpush : ∀ s : List Char, buf.push c ++ String.mk s = buf ++ String.mk (c :: s) := by
      intro s
      apply String.ext
      simp
    cases t with
    | nil =>
      have hb : buf.push c ++ String.mk [] = buf.push c := by
        apply String.ext
        simp
      rw [parseGo, if_neg hc, if_neg (show ¬(c = ',' ∧ true = false) by simp), ← hpush [], hb]
    | cons c2 t2 =>
      rw [parseGo, if_neg hc, if_neg (show ¬(c = ',' ∧ true = false) by simp),
        ih (buf.push c) acc ht, hpush (c2 :: t2)]

/-- Claim C9: the tokenizer is total and non-validating — it always returns
at least one field (the final buffer is pushed even when empty), and from a
state inside an unterminated quote it simply accumulates every remaining
character (commas included) into the final field and stops with the flag
still set, raising no error. -/
theorem c9_tokenizer_permissive :
    (∀ line : String, 1 ≤ (parse_csv_line line).length) ∧
    (∀ (cs : List Char) (buf : String) (acc : List String), '"' ∉ cs →
        parseGo cs buf true acc = (acc ++ [buf ++ String.mk cs], true)) :=
  ⟨fun line => by simpa using parseGo_length line.data "" false [], parseGo_unterminated⟩

/-- Witness for C9: inside quotes, the rest of the line (with its commas)
lands in the final field and the flag stays set. -/
theorem c9_tokenizer_permissive_witness :
    parseGo [',', 'a'] "pre" true ["x"] = (["x", "pre,a"], true) :=
  (c9_tokenizer_permissive.2 [',', 'a'] "pre" ["x"] (by decide)).trans (by decide)

lemma processLine_invariant (label : String) (s : LoopState) (line : String)
    (h : s.processed_count = s.out.length) :
    (processLine label s line).processed_count = (processLine label s line).out.length := by
  simp only [processLine]
  split_ifs <;> simp [h, List.length_append]

lemma runLoop_invariant (label : String) : ∀ (lines : List String) (s : LoopState),
    s.processed_count = s.out.length →
    (runLoop label s lines).processed_count = (runLoop label s lines).out.length := by
  intro lines
  induction lines with
  | nil => intro s h; simpa [runLoop] using h
  | cons line rest ih =>
    intro s h
    simp only [runLoop, List.foldl_cons]
    exact ih (processLine label s line) (processLine_invariant label s line h)

/-- Claim C10: for every run, the processed-row count equals the number of
data lines in the output after the fixed header line — each accepted row
appends exactly one line and one count, and no other path touches either. -/
theorem c10_count_matches_lines (lines : List String) (label : String) :
    (runProgram lines label).processed_count = (runProgram lines label).out.length :=
  runLoop_invariant label lines initState rfl

end Bz4
